import Mathlib

/-!
# Verification of the APK similarity comparator (src/main.py)

Shallow embedding of the feature-extraction and similarity-scoring engine of
`src/main.py`.  Methods, basic blocks and instructions are modelled as plain
records carrying exactly the attributes the program reads.  Python `float`
division of integer counts is modelled exactly by `ℚ` (the idealized real
arithmetic under which the formulas are stated).  Python exceptions are
modelled by `Option`: a `none` result is a raised exception
(`ZeroDivisionError` in the metrics, a propagated string-resolution error in
feature extraction).  The MD5 digest `hash_feature` of the source is modelled
as an injective encoding (the identity on the tagged strings): the design
treats hash collisions across distinct tagged strings as a
negligible-probability approximation, never as behaviour to be verified.
-/

namespace APKCompare

/-- One decoded instruction, as read by `src/main.py`: its mnemonic
(`instruction.get_name()`) and the outcome of resolving its string-constant
reference (`instruction.cm.vm.get_cm_string(instruction.get_ref_kind())`).
The resolver is the external Code Analysis Provider, not code of this
repository; per the spec's external-interface section it returns the string
or fails with a `ResolutionError` when the constant-pool entry is missing,
so its outcome is modelled as `Option String` (`none` = `ResolutionError`). -/
structure Instruction where
  name : String
  resolveString : Option String
  deriving DecidableEq, Repr

/-- One basic block: the program only ever reads its ordered instruction
sequence (`block.get_instructions()`), and only to count it. -/
structure BasicBlock where
  instructions : List Instruction
  deriving DecidableEq, Repr

/-- One analyzed method, carrying exactly the attributes `src/main.py` reads:
`class_name`, `full_name`, `access` (androguard exposes the modifiers as a
string; `'private' in method.access` is a substring test), `get_length()`,
`get_basic_blocks().gets()`, `get_xref_to()` (of which only the callee's
`full_name` is used), the truthiness of `method.code`, and
`method.get_method().get_instructions()`. -/
structure MMethod where
  class_name : String
  full_name : String
  access : String
  length : Nat
  basic_blocks : List BasicBlock
  xref_to : List String
  code : Bool
  instructions : List Instruction
  deriving DecidableEq, Repr

/-- `get_method_signature(method)` of `src/main.py`: returns `method.full_name`. -/
def get_method_signature (method : MMethod) : String :=
  method.full_name

/-- `hash_feature(feature)` of `src/main.py` computes the MD5 hex digest of the
tagged feature string.  Modelled as an injective encoding (the identity):
per the design, tokens from different tagged strings collide only with
negligible probability and such collisions are an accepted approximation. -/
def hash_feature (feature : String) : String :=
  feature

/-- The string-constant pass of `get_method_features` (src/main.py lines
35-38): walk the method's instructions; for each `const-string` /
`const-string/jumbo` instruction resolve its referenced constant and emit the
hashed `string:` token.  The source wraps the resolver call in no exception
handler, so a `ResolutionError` (modelled by `resolveString = none`)
propagates: the whole pass — and with it the extraction of the owning
method — fails (`none`). -/
def string_tokens : List Instruction → Option (List String)
  | [] => some []
  | i :: rest =>
      if i.name = "const-string" ∨ i.name = "const-string/jumbo" then
        match i.resolveString with
        | none => none
        | some s => (string_tokens rest).map (fun l => hash_feature ("string:" ++ s) :: l)
      else
        string_tokens rest

/-- `get_method_features(method)` of `src/main.py`: the set of hashed feature
tokens of one method — one `signature:` token, one `api_call:` token per
cross-reference target, one `block:` token per basic-block instruction count,
and (when `method.code` is truthy) one `string:` token per successfully
resolved string-load instruction.  A string-resolution failure has no handler
in the source, so it aborts the extraction: the result is `none`. -/
def get_method_features (method : MMethod) : Option (Finset String) :=
  let base : Finset String :=
    insert (hash_feature ("signature:" ++ method.full_name))
      ((method.xref_to.map (fun call => hash_feature ("api_call:" ++ call))).toFinset ∪
       (method.basic_blocks.map
         (fun block => hash_feature ("block:" ++ toString block.instructions.length))).toFinset)
  if method.code then
    (string_tokens method.instructions).map (fun toks => base ∪ toks.toFinset)
  else
    some base

/-- `filter_method(method)` of `src/main.py`: keep methods whose class name
starts with `Lwisemate/ai` and whose access string contains `private`. -/
def filter_method (method : MMethod) : Bool :=
  method.class_name.startsWith "Lwisemate/ai" &&
    (method.access.splitOn "private").length > 1

/-- Metric 1, src/main.py lines 73-76: `len(S1 ∩ S2) / max(len(S1), len(S2))`
over the signature sets of the two filtered method lists.  The source divides
unconditionally; when both lists are empty the denominator is `0` and Python
raises `ZeroDivisionError`, modelled by `none`. -/
def signature_similarity (ms1 ms2 : List MMethod) : Option ℚ :=
  let signatures1 := (ms1.map get_method_signature).toFinset
  let signatures2 := (ms2.map get_method_signature).toFinset
  let common_signatures := signatures1 ∩ signatures2
  if max signatures1.card signatures2.card = 0 then none
  else some ((common_signatures.card : ℚ) /
    ((max signatures1.card signatures2.card : ℕ) : ℚ))

/-- The Jaccard similarity expression of src/main.py line 89:
`len(f1 & f2) / len(f1 | f2)`.  The source divides unconditionally; an empty
union raises `ZeroDivisionError`, modelled by `none`. -/
def jaccard (f1 f2 : Finset String) : Option ℚ :=
  if (f1 ∪ f2).card = 0 then none
  else some (((f1 ∩ f2).card : ℚ) / ((f1 ∪ f2).card : ℚ))

/-- The per-method best match of src/main.py lines 89-90:
`max((len(f1 & f2) / len(f1 | f2) for f2 in method_features2), default=0)`.
An empty list 2 yields the `default`, `0`; otherwise every Jaccard value is
computed (an exception in any of them propagates as `none`) and the maximum is
taken.  Python's `default` is only used for the empty generator; since every
computed Jaccard value is non-negative, folding with base `0` agrees with
Python's `max` on the non-empty case as well. -/
def best_match (f1 : Finset String) (fs2 : List (Finset String)) : Option ℚ :=
  (fs2.mapM (jaccard f1)).map (fun js => js.foldr max 0)

/-- Metric 2 over already-extracted feature sets, src/main.py lines 87-93:
sum the per-method best matches over list 1 and divide by the length of
list 1, with an empty list 1 defined as `0` (the `if method_features1 else 0`
guard on line 93, reached without any division). -/
def feature_similarity_sets (fs1 fs2 : List (Finset String)) : Option ℚ :=
  (fs1.mapM (fun f1 => best_match f1 fs2)).map
    (fun sims => if fs1.isEmpty then 0 else sims.sum / (fs1.length : ℚ))

/-- Metric 2, src/main.py lines 84-93: extract every method's feature set of
both lists (lines 84-85; an extraction failure aborts the comparison), then
average the per-method best matches of list 1 against list 2. -/
def feature_similarity (ms1 ms2 : List MMethod) : Option ℚ := do
  let fs1 ← ms1.mapM get_method_features
  let fs2 ← ms2.mapM get_method_features
  feature_similarity_sets fs1 fs2

/-- Metric 3, src/main.py lines 101-104: `len(C1 ∩ C2) / max(len(C1), len(C2))`
over the sets of distinct class names of the two filtered method lists.  As
with metric 1 the source divides unconditionally, so the doubly-empty case
raises `ZeroDivisionError` (`none`). -/
def class_similarity (ms1 ms2 : List MMethod) : Option ℚ :=
  let classes1 := (ms1.map MMethod.class_name).toFinset
  let classes2 := (ms2.map MMethod.class_name).toFinset
  let common_classes := classes1 ∩ classes2
  if max classes1.card classes2.card = 0 then none
  else some ((common_classes.card : ℚ) / ((max classes1.card classes2.card : ℕ) : ℚ))

/-- The mean method length of one list, src/main.py lines 112-115:
`sum(lengths) / len(lengths) if lengths else 0`. -/
def avg_length (ms : List MMethod) : ℚ :=
  if ms.isEmpty then 0 else ((ms.map MMethod.length).sum : ℚ) / (ms.length : ℚ)

/-- Metric 4, src/main.py lines 112-119:
`min(avg1, avg2) / max(avg1, avg2) if max(avg1, avg2) > 0 else 1`. -/
def length_similarity (ms1 ms2 : List MMethod) : ℚ :=
  let avg_length1 := avg_length ms1
  let avg_length2 := avg_length ms2
  if max avg_length1 avg_length2 > 0 then
    min avg_length1 avg_length2 / max avg_length1 avg_length2
  else 1

/-- The mean basic-block count of one list, src/main.py lines 124-127:
`sum(bb_counts) / len(bb_counts) if bb_counts else 0`, where each count is
`len(m.get_basic_blocks().gets())`. -/
def avg_bb (ms : List MMethod) : ℚ :=
  if ms.isEmpty then 0
  else (((ms.map (fun m => m.basic_blocks.length)).sum : ℕ) : ℚ) / (ms.length : ℚ)

/-- Metric 5, src/main.py lines 124-131: the same min/max ratio over the mean
basic-block counts, with the same `max = 0 → 1` guard. -/
def bb_similarity (ms1 ms2 : List MMethod) : ℚ :=
  let avg_bb1 := avg_bb ms1
  let avg_bb2 := avg_bb ms2
  if max avg_bb1 avg_bb2 > 0 then min avg_bb1 avg_bb2 / max avg_bb1 avg_bb2 else 1

/-- The metric pipeline of `compare_apk_code`, src/main.py lines 71-136, in
source order: metrics 1 and 2 (and 3) can raise, which aborts the comparison
(`none`); otherwise the five scores and the overall score — their sum divided
by 5, line 134-135 — are returned. -/
def compare_apk_code (ms1 ms2 : List MMethod) : Option (ℚ × ℚ × ℚ × ℚ × ℚ × ℚ) := do
  let s ← signature_similarity ms1 ms2
  let f ← feature_similarity ms1 ms2
  let c ← class_similarity ms1 ms2
  let l := length_similarity ms1 ms2
  let b := bb_similarity ms1 ms2
  pure (s, f, c, l, b, (s + f + c + l + b) / 5)

/-- The spec's Jaccard similarity with the explicit degenerate-case
convention, stated from the spec's words for comparison with the source's
`jaccard`: `|F(m1) ∩ F(m2)| / |F(m1) ∪ F(m2)|`, with the Jaccard of two
empty feature sets treated as `0`, not `1`. -/
def jaccard_spec (f1 f2 : Finset String) : ℚ :=
  if f1 ∪ f2 = ∅ then 0 else ((f1 ∩ f2).card : ℚ) / ((f1 ∪ f2).card : ℚ)

/-- Metric 2 as the spec words it: the arithmetic mean, over every method in
list 1, of the maximum over every method in list 2 of the Jaccard similarity
of their feature sets; the per-method maximum is `0` when list 2 is empty and
the mean is `0` when list 1 is empty. -/
def feature_similarity_spec (fs1 fs2 : List (Finset String)) : ℚ :=
  if fs1.isEmpty then 0
  else (fs1.map (fun f1 => (fs2.map (jaccard_spec f1)).foldr max 0)).sum / (fs1.length : ℚ)

/-- The min/max ratio as the spec words it for metrics 4 and 5:
`min(a, b) / max(a, b)`, defined as `1` when both averages are `0`. -/
def ratio_spec (a b : ℚ) : ℚ :=
  if a = 0 ∧ b = 0 then 1 else min a b / max a b

/-- A degenerate but legal method: no cross-references, no basic blocks, no
string-load instructions (and code present, so the string pass runs on an
empty instruction list). -/
def degenerateMethod : MMethod :=
  { class_name := "Lwisemate/ai/D;", full_name := "Lwisemate/ai/D;->d()V",
    access := "private", length := 0, basic_blocks := [], xref_to := [],
    code := true, instructions := [] }

/-- A method whose single `const-string` instruction fails to resolve
(`resolveString = none` models the collaborator's `ResolutionError`), even
though the method has an otherwise-valid feature set (a signature, a
cross-reference and a basic block). -/
def strFailMethod : MMethod :=
  { class_name := "Lwisemate/ai/F;", full_name := "Lwisemate/ai/F;->f()V",
    access := "private", length := 7,
    basic_blocks := [{ instructions := [{ name := "nop", resolveString := none }] }],
    xref_to := ["Lwisemate/ai/G;->g()V"], code := true,
    instructions := [{ name := "const-string", resolveString := none },
                     { name := "return-void", resolveString := none }] }

/-- Like `strFailMethod` but the failing string load uses the
`const-string/jumbo` mnemonic. -/
def strFailJumboMethod : MMethod :=
  { class_name := "Lwisemate/ai/H;", full_name := "Lwisemate/ai/H;->h()V",
    access := "private", length := 9, basic_blocks := [],
    xref_to := [], code := true,
    instructions := [{ name := "const-string/jumbo", resolveString := none }] }

/-- A minimal concrete method (no code item, so no string pass runs). -/
def methodA : MMethod :=
  { class_name := "Lwisemate/ai/A;", full_name := "Lwisemate/ai/A;->a()V",
    access := "private", length := 3, basic_blocks := [], xref_to := [],
    code := false, instructions := [] }

/-- A second minimal concrete method, sharing nothing with `methodA`. -/
def methodB : MMethod :=
  { class_name := "Lwisemate/ai/B;", full_name := "Lwisemate/ai/B;->b()V",
    access := "private", length := 3, basic_blocks := [], xref_to := [],
    code := false, instructions := [] }

/-- A third minimal concrete method, sharing nothing with the other two. -/
def methodC : MMethod :=
  { class_name := "Lwisemate/ai/C;", full_name := "Lwisemate/ai/C;->c()V",
    access := "private", length := 3, basic_blocks := [], xref_to := [],
    code := false, instructions := [] }

/-- The feature set of `methodA`: just its signature token. -/
def featA : Finset String := {hash_feature ("signature:" ++ methodA.full_name)}

/-- The feature set of `methodB`: just its signature token. -/
def featB : Finset String := {hash_feature ("signature:" ++ methodB.full_name)}

/-- The feature set of `methodC`: just its signature token. -/
def featC : Finset String := {hash_feature ("signature:" ++ methodC.full_name)}

end APKCompare

namespace APKCompare

/-! ## Helper lemmas -/

lemma mapM_total {α β : Type} (f : α → Option β) (g : α → β) (l : List α)
    (h : ∀ a ∈ l, f a = some (g a)) : l.mapM f = some (l.map g) := by
  induction l with
  | nil => rfl
  | cons a l ih =>
      rw [List.mapM_cons, h a (List.mem_cons_self a l),
        ih (fun x hx => h x (List.mem_cons_of_mem a hx))]
      rfl

lemma mapM_mem {α β : Type} (f : α → Option β) (l : List α) (ys : List β)
    (h : l.mapM f = some ys) : ∀ y ∈ ys, ∃ a ∈ l, f a = some y := by
  induction l generalizing ys with
  | nil =>
      intro y hy
      rw [List.mapM_nil] at h
      simp only [pure, Option.some.injEq] at h
      subst h
      simp at hy
  | cons a l ih =>
      intro y hy
      rw [List.mapM_cons] at h
      cases hfa : f a with
      | none => rw [hfa] at h; simp [Bind.bind] at h
      | some b =>
          rw [hfa] at h
          cases hml : l.mapM f with
          | none => rw [hml] at h; simp [Bind.bind] at h
          | some bs =>
              rw [hml] at h
              simp [Bind.bind, pure] at h
              subst h
              rcases List.mem_cons.mp hy with rfl | hy2
              · exact ⟨a, List.mem_cons_self a l, hfa⟩
              · obtain ⟨x, hx, hfx⟩ := ih bs hml y hy2
                exact ⟨x, List.mem_cons_of_mem a hx, hfx⟩

lemma mapM_length {α β : Type} (f : α → Option β) (l : List α) (ys : List β)
    (h : l.mapM f = some ys) : ys.length = l.length := by
  induction l generalizing ys with
  | nil =>
      rw [List.mapM_nil] at h
      simp only [pure, Option.some.injEq] at h
      subst h; rfl
  | cons a l ih =>
      rw [List.mapM_cons] at h
      cases hfa : f a with
      | none => rw [hfa] at h; simp [Bind.bind] at h
      | some b =>
          rw [hfa] at h
          cases hml : l.mapM f with
          | none => rw [hml] at h; simp [Bind.bind] at h
          | some bs =>
              rw [hml] at h
              simp [Bind.bind, pure] at h
              subst h
              simp [ih bs hml]

/-- The signature token is always inserted first (src/main.py line 22), so a
successful extraction always contains it. -/
lemma signature_mem_features (m : MMethod) (f : Finset String)
    (h : get_method_features m = some f) :
    hash_feature ("signature:" ++ m.full_name) ∈ f := by
  unfold get_method_features at h
  by_cases hc : m.code
  · simp only [hc, if_true, Option.map_eq_some'] at h
    obtain ⟨toks, _, rfl⟩ := h
    exact Finset.mem_union_left _ (Finset.mem_insert_self _ _)
  · rw [Bool.not_eq_true] at hc
    simp only [hc, Bool.false_eq_true, if_false, Option.some.injEq] at h
    subst h
    exact Finset.mem_insert_self _ _

lemma features_nonempty (m : MMethod) (f : Finset String)
    (h : get_method_features m = some f) : f.Nonempty :=
  ⟨_, signature_mem_features m f h⟩

/-- A string-load instruction whose constant fails to resolve makes the whole
string pass fail: src/main.py line 37 has no exception handler. -/
lemma string_tokens_none (insts : List Instruction)
    (h : ∃ i ∈ insts, (i.name = "const-string" ∨ i.name = "const-string/jumbo") ∧
          i.resolveString = none) :
    string_tokens insts = none := by
  induction insts with
  | nil => simp at h
  | cons i rest ih =>
      obtain ⟨j, hj, hjname, hjres⟩ := h
      rcases List.mem_cons.mp hj with rfl | hjrest
      · unfold string_tokens
        rw [if_pos hjname, hjres]
      · unfold string_tokens
        by_cases hi : i.name = "const-string" ∨ i.name = "const-string/jumbo"
        · rw [if_pos hi]
          cases hres : i.resolveString with
          | none => rfl
          | some s => rw [ih ⟨j, hjrest, hjname, hjres⟩]; rfl
        · rw [if_neg hi]
          exact ih ⟨j, hjrest, hjname, hjres⟩

/-! ## C10 -/

/-- C10: for every method whose extraction succeeds, the extracted Method
Feature Set contains the hashed `signature:` token of the method's
`full_name`, hence is non-empty — even for a degenerate method with no
cross-references, no basic blocks, and no string-load instructions. -/
theorem feature_set_contains_signature (m : MMethod) (f : Finset String)
    (h : get_method_features m = some f) :
    hash_feature ("signature:" ++ m.full_name) ∈ f ∧ f.Nonempty :=
  ⟨signature_mem_features m f h, features_nonempty m f h⟩

/-- Witness for C10 at the degenerate method. -/
theorem feature_set_contains_signature_witness :
    hash_feature ("signature:" ++ degenerateMethod.full_name) ∈
        ({hash_feature ("signature:" ++ degenerateMethod.full_name)} : Finset String) ∧
      ({hash_feature ("signature:" ++ degenerateMethod.full_name)} : Finset String).Nonempty :=
  feature_set_contains_signature degenerateMethod _ (by decide)

/-! ## C9 -/

/-- C9 counterexample: `strFailMethod` has a signature, a cross-reference and
a basic block, yet its extraction yields no feature set at all — the
unhandled resolution failure of its single `const-string` instruction aborts
the extraction of the whole method, contradicting the claim that such a
failure is skipped per-instruction. -/
theorem string_failure_aborts_extraction_cex :
    get_method_features strFailMethod = none := by decide

/-- C9 amended: a string-constant resolution failure for a string-load
instruction aborts extraction of the owning method — the method yields no
feature set (the error propagates; src/main.py lines 34-38 have no handler). -/
theorem string_failure_aborts_extraction (m : MMethod)
    (hc : m.code = true)
    (h : ∃ i ∈ m.instructions,
          (i.name = "const-string" ∨ i.name = "const-string/jumbo") ∧
            i.resolveString = none) :
    get_method_features m = none := by
  unfold get_method_features
  rw [if_pos hc, string_tokens_none m.instructions h]
  rfl

/-- Witness for the amended C9, at the `const-string/jumbo` variant. -/
theorem string_failure_aborts_extraction_witness :
    get_method_features strFailJumboMethod = none :=
  string_failure_aborts_extraction strFailJumboMethod rfl (by decide)

/-! ## C3 -/

/-- C3 counterexample: with both filtered method lists empty the comparison
does raise an error — the signature-similarity division at src/main.py line
76 is `0 / max(0, 0)`, a `ZeroDivisionError` (modelled by `none`), so no
value and no sentinel is produced. -/
theorem empty_lists_divide_by_zero_cex :
    compare_apk_code ([] : List MMethod) [] = none := rfl

/-- C3 amended: when both filtered method lists are empty, the signature and
class similarity computations divide by zero — Python raises
`ZeroDivisionError` (modelled by `none`) and the whole comparison fails; no
"not applicable" sentinel is reported. -/
theorem empty_lists_divide_by_zero (ms1 ms2 : List MMethod)
    (h1 : ms1 = []) (h2 : ms2 = []) :
    signature_similarity ms1 ms2 = none ∧ class_similarity ms1 ms2 = none ∧
      compare_apk_code ms1 ms2 = none := by
  subst h1; subst h2
  exact ⟨rfl, rfl, rfl⟩

/-- Witness for the amended C3. -/
theorem empty_lists_divide_by_zero_witness :
    signature_similarity ([] : List MMethod) [] = none ∧
      class_similarity ([] : List MMethod) [] = none ∧
      compare_apk_code ([] : List MMethod) [] = none :=
  empty_lists_divide_by_zero [] [] rfl rfl

/-! ## C2 -/

lemma max_toFinset_card_ne_zero {α β : Type} [DecidableEq β] (f : α → β)
    (l1 l2 : List α) (h : l1 ≠ [] ∨ l2 ≠ []) :
    max (l1.map f).toFinset.card (l2.map f).toFinset.card ≠ 0 := by
  intro hm
  have h1 : (l1.map f).toFinset.card = 0 := Nat.le_zero.mp (hm ▸ le_max_left _ _)
  have h2 : (l2.map f).toFinset.card = 0 := Nat.le_zero.mp (hm ▸ le_max_right _ _)
  rcases h with h | h
  · obtain ⟨a, l, rfl⟩ := List.exists_cons_of_ne_nil h
    exact Finset.card_ne_zero_of_mem (by simp : f a ∈ ((a :: l).map f).toFinset) h1
  · obtain ⟨a, l, rfl⟩ := List.exists_cons_of_ne_nil h
    exact Finset.card_ne_zero_of_mem (by simp : f a ∈ ((a :: l).map f).toFinset) h2

/-- C2: when at least one filtered list is non-empty, signature similarity is
`|S1 ∩ S2| / max(|S1|, |S2|)` over the signature (`full_name`) sets, and class
similarity is `|C1 ∩ C2| / max(|C1|, |C2|)` over the distinct-class-name sets. -/
theorem sig_class_similarity_formula (ms1 ms2 : List MMethod)
    (h : ms1 ≠ [] ∨ ms2 ≠ []) :
    signature_similarity ms1 ms2 =
      some ((((ms1.map get_method_signature).toFinset ∩
            (ms2.map get_method_signature).toFinset).card : ℚ) /
          ((max (ms1.map get_method_signature).toFinset.card
            (ms2.map get_method_signature).toFinset.card : ℕ) : ℚ)) ∧
    class_similarity ms1 ms2 =
      some ((((ms1.map MMethod.class_name).toFinset ∩
            (ms2.map MMethod.class_name).toFinset).card : ℚ) /
          ((max (ms1.map MMethod.class_name).toFinset.card
            (ms2.map MMethod.class_name).toFinset.card : ℕ) : ℚ)) := by
  constructor
  · unfold signature_similarity
    rw [if_neg (max_toFinset_card_ne_zero get_method_signature ms1 ms2 h)]
  · unfold class_similarity
    rw [if_neg (max_toFinset_card_ne_zero MMethod.class_name ms1 ms2 h)]

/-- Witness for C2 at `[methodA]`, `[methodA, methodB]`. -/
theorem sig_class_similarity_formula_witness :
    signature_similarity [methodA] [methodA, methodB] =
      some (((([methodA].map get_method_signature).toFinset ∩
            ([methodA, methodB].map get_method_signature).toFinset).card : ℚ) /
          ((max ([methodA].map get_method_signature).toFinset.card
            ([methodA, methodB].map get_method_signature).toFinset.card : ℕ) : ℚ)) ∧
    class_similarity [methodA] [methodA, methodB] =
      some (((([methodA].map MMethod.class_name).toFinset ∩
            ([methodA, methodB].map MMethod.class_name).toFinset).card : ℚ) /
          ((max ([methodA].map MMethod.class_name).toFinset.card
            ([methodA, methodB].map MMethod.class_name).toFinset.card : ℕ) : ℚ)) :=
  sig_class_similarity_formula [methodA] [methodA, methodB] (Or.inl (by decide))

/-! ## C4 -/

lemma avg_length_nonneg (ms : List MMethod) : 0 ≤ avg_length ms := by
  unfold avg_length
  split
  · exact le_refl 0
  · positivity

lemma avg_bb_nonneg (ms : List MMethod) : 0 ≤ avg_bb ms := by
  unfold avg_bb
  split
  · exact le_refl 0
  · exact div_nonneg (Nat.cast_nonneg _) (Nat.cast_nonneg _)

/-- The source's guarded min/max ratio coincides with the spec's wording for
non-negative averages. -/
lemma minmax_eq_ratio_spec (a b : ℚ) (ha : 0 ≤ a) (hb : 0 ≤ b) :
    (if max a b > 0 then min a b / max a b else 1) = ratio_spec a b := by
  unfold ratio_spec
  by_cases h : a = 0 ∧ b = 0
  · obtain ⟨rfl, rfl⟩ := h
    simp
  · have hne : max a b ≠ 0 := by
      intro hm
      exact h ⟨le_antisymm (hm ▸ le_max_left a b) ha,
        le_antisymm (hm ▸ le_max_right a b) hb⟩
    rw [if_neg h, if_pos (lt_of_le_of_ne (le_trans ha (le_max_left a b)) (Ne.symm hne))]

/-- C4: length similarity equals the spec's min/max ratio over the two lists'
mean method lengths, basic-block-count similarity equals the same ratio over
the mean basic-block counts, and each is `1` when both averages are `0` — in
particular when both lists are empty. -/
theorem minmax_similarity_formula (ms1 ms2 : List MMethod) :
    length_similarity ms1 ms2 = ratio_spec (avg_length ms1) (avg_length ms2) ∧
      bb_similarity ms1 ms2 = ratio_spec (avg_bb ms1) (avg_bb ms2) ∧
      length_similarity [] [] = 1 ∧ bb_similarity [] [] = 1 := by
  refine ⟨minmax_eq_ratio_spec _ _ (avg_length_nonneg ms1) (avg_length_nonneg ms2),
    minmax_eq_ratio_spec _ _ (avg_bb_nonneg ms1) (avg_bb_nonneg ms2), ?_, ?_⟩
  · exact (minmax_eq_ratio_spec 0 0 le_rfl le_rfl).trans (if_pos ⟨rfl, rfl⟩)
  · exact (minmax_eq_ratio_spec 0 0 le_rfl le_rfl).trans (if_pos ⟨rfl, rfl⟩)

/-! ## C6 -/

/-- C6: metrics 1, 3, 4 and 5 are symmetric — swapping the two package roles
yields the same value (including the same error behaviour for metrics 1 and 3). -/
theorem metrics_symmetric (ms1 ms2 : List MMethod) :
    signature_similarity ms1 ms2 = signature_similarity ms2 ms1 ∧
      class_similarity ms1 ms2 = class_similarity ms2 ms1 ∧
      length_similarity ms1 ms2 = length_similarity ms2 ms1 ∧
      bb_similarity ms1 ms2 = bb_similarity ms2 ms1 := by
  refine ⟨?_, ?_, ?_, ?_⟩
  · simp only [signature_similarity]
    rw [Finset.inter_comm ((ms1.map get_method_signature).toFinset),
      Nat.max_comm ((ms1.map get_method_signature).toFinset.card)]
  · simp only [class_similarity]
    rw [Finset.inter_comm ((ms1.map MMethod.class_name).toFinset),
      Nat.max_comm ((ms1.map MMethod.class_name).toFinset.card)]
  · simp only [length_similarity]
    rw [max_comm (avg_length ms1) (avg_length ms2),
      min_comm (avg_length ms1) (avg_length ms2)]
  · simp only [bb_similarity]
    rw [max_comm (avg_bb ms1) (avg_bb ms2), min_comm (avg_bb ms1) (avg_bb ms2)]

/-! ## C1 -/

/-- On a non-empty first feature set the source's unconditional Jaccard
division never divides by zero and agrees with the spec's convention. -/
lemma jaccard_eq_spec (f1 f2 : Finset String) (h : f1.Nonempty) :
    jaccard f1 f2 = some (jaccard_spec f1 f2) := by
  have hu : (f1 ∪ f2).Nonempty := h.mono Finset.subset_union_left
  unfold jaccard jaccard_spec
  rw [if_neg (fun hc => hu.ne_empty (Finset.card_eq_zero.mp hc)), if_neg hu.ne_empty]

lemma mapM_features_nonempty (ms : List MMethod) (fs : List (Finset String))
    (h : ms.mapM get_method_features = some fs) : ∀ f ∈ fs, f.Nonempty := by
  intro f hf
  obtain ⟨m, _, hm⟩ := mapM_mem get_method_features ms fs h f hf
  exact features_nonempty m f hm

lemma best_match_eq_spec (f1 : Finset String) (fs2 : List (Finset String))
    (h : f1.Nonempty) :
    best_match f1 fs2 = some ((fs2.map (jaccard_spec f1)).foldr max 0) := by
  unfold best_match
  rw [mapM_total (jaccard f1) (jaccard_spec f1) fs2 (fun f2 _ => jaccard_eq_spec f1 f2 h)]
  rfl

/-- The heart of C1: over successfully extracted feature-set lists, metric 2
computes exactly the spec's best-match mean. -/
lemma feature_similarity_spec_eq (ms1 ms2 : List MMethod)
    (fs1 fs2 : List (Finset String))
    (h1 : ms1.mapM get_method_features = some fs1)
    (h2 : ms2.mapM get_method_features = some fs2) :
    feature_similarity ms1 ms2 = some (feature_similarity_spec fs1 fs2) := by
  unfold feature_similarity
  rw [h1, h2]
  show feature_similarity_sets fs1 fs2 = _
  unfold feature_similarity_sets feature_similarity_spec
  rw [mapM_total (fun f1 => best_match f1 fs2)
    (fun f1 => (fs2.map (jaccard_spec f1)).foldr max 0) fs1
    (fun f1 hf1 => best_match_eq_spec f1 fs2 (mapM_features_nonempty ms1 fs1 h1 f1 hf1))]
  by_cases he : fs1.isEmpty
  · simp [he]
  · simp [he]

/-- C1: for every pair of filtered method lists whose feature extraction
succeeds, the best-match feature similarity equals the arithmetic mean, over
every method of list 1, of the maximum over every method of list 2 of the
Jaccard similarity of their feature sets — with per-method maximum `0` for an
empty list 2, mean `0` for an empty list 1, and the Jaccard of two empty sets
taken as `0` (`feature_similarity_spec`). -/
theorem feature_similarity_is_best_match_mean (ms1 ms2 : List MMethod)
    (fs1 fs2 : List (Finset String))
    (h1 : ms1.mapM get_method_features = some fs1)
    (h2 : ms2.mapM get_method_features = some fs2) :
    feature_similarity ms1 ms2 = some (feature_similarity_spec fs1 fs2) :=
  feature_similarity_spec_eq ms1 ms2 fs1 fs2 h1 h2

/-- Witness for C1 at `[methodA]`, `[methodB]`. -/
theorem feature_similarity_is_best_match_mean_witness :
    feature_similarity [methodA] [methodB] =
      some (feature_similarity_spec [featA] [featB]) :=
  feature_similarity_is_best_match_mean [methodA] [methodB] [featA] [featB]
    (by decide) (by decide)

/-! ## C7 -/

lemma jaccard_spec_self (f : Finset String) (h : f.Nonempty) :
    jaccard_spec f f = 1 := by
  unfold jaccard_spec
  rw [Finset.union_self, Finset.inter_self, if_neg h.ne_empty]
  exact div_self (Nat.cast_ne_zero.mpr (fun hc => h.ne_empty (Finset.card_eq_zero.mp hc)))

lemma jaccard_spec_disjoint (f1 f2 : Finset String) (h : f1 ∩ f2 = ∅) :
    jaccard_spec f1 f2 = 0 := by
  unfold jaccard_spec
  split
  · rfl
  · rw [h, Finset.card_empty]
    simp

lemma featA_nonempty : featA.Nonempty := Finset.singleton_nonempty _

lemma featB_nonempty : featB.Nonempty := Finset.singleton_nonempty _

lemma featC_nonempty : featC.Nonempty := Finset.singleton_nonempty _

lemma spec_one_vs_three : feature_similarity_spec [featA] [featA, featB, featC] = 1 := by
  unfold feature_similarity_spec
  rw [if_neg (by decide)]
  simp only [List.map_cons, List.map_nil, List.foldr, List.sum_cons, List.sum_nil,
    List.length_cons, List.length_nil]
  rw [jaccard_spec_self featA featA_nonempty,
    jaccard_spec_disjoint featA featB (by decide),
    jaccard_spec_disjoint featA featC (by decide)]
  simp only [max_self]
  rw [max_eq_left (by norm_num : (0:ℚ) ≤ 1)]
  norm_num

lemma spec_three_vs_one :
    feature_similarity_spec [featA, featB, featC] [featA] = 1 / 3 := by
  unfold feature_similarity_spec
  rw [if_neg (by decide)]
  simp only [List.map_cons, List.map_nil, List.foldr, List.sum_cons, List.sum_nil,
    List.length_cons, List.length_nil]
  rw [jaccard_spec_self featA featA_nonempty,
    jaccard_spec_disjoint featB featA (by decide),
    jaccard_spec_disjoint featC featA (by decide)]
  simp only [max_self]
  rw [max_eq_left (by norm_num : (0:ℚ) ≤ 1)]
  norm_num

/-- C7: the best-match feature similarity is directionally asymmetric — with
A one method and B three methods having pairwise non-overlapping feature
sets (B containing A's method), metric 2 gives `1` for (A, B) but `1/3` for
(B, A). -/
theorem feature_similarity_asymmetric :
    feature_similarity [methodA] [methodA, methodB, methodC] ≠
      feature_similarity [methodA, methodB, methodC] [methodA] := by
  rw [feature_similarity_spec_eq [methodA] [methodA, methodB, methodC]
      [featA] [featA, featB, featC] (by decide) (by decide),
    feature_similarity_spec_eq [methodA, methodB, methodC] [methodA]
      [featA, featB, featC] [featA] (by decide) (by decide),
    spec_one_vs_three, spec_three_vs_one]
  intro h
  rw [Option.some_inj] at h
  norm_num at h

/-! ## C5 -/

lemma foldr_max_nonneg (l : List ℚ) : 0 ≤ l.foldr max 0 := by
  induction l with
  | nil => exact le_refl 0
  | cons a l ih => exact le_trans ih (le_max_right a _)

lemma foldr_max_le_one (l : List ℚ) (h : ∀ x ∈ l, x ≤ 1) : l.foldr max 0 ≤ 1 := by
  induction l with
  | nil => norm_num
  | cons a l ih =>
      exact max_le (h a (List.mem_cons_self a l))
        (ih fun x hx => h x (List.mem_cons_of_mem a hx))

lemma le_foldr_max (l : List ℚ) (x : ℚ) (hx : x ∈ l) : x ≤ l.foldr max 0 := by
  induction l with
  | nil => simp at hx
  | cons a l ih =>
      rcases List.mem_cons.mp hx with rfl | hx2
      · exact le_max_left x _
      · exact le_trans (ih hx2) (le_max_right a _)

lemma list_sum_nonneg (l : List ℚ) (h : ∀ x ∈ l, 0 ≤ x) : 0 ≤ l.sum := by
  induction l with
  | nil => exact le_refl 0
  | cons a l ih =>
      rw [List.sum_cons]
      exact add_nonneg (h a (List.mem_cons_self a l))
        (ih fun x hx => h x (List.mem_cons_of_mem a hx))

lemma list_sum_le_length (l : List ℚ) (h : ∀ x ∈ l, x ≤ 1) : l.sum ≤ (l.length : ℚ) := by
  induction l with
  | nil => simp
  | cons a l ih =>
      rw [List.sum_cons, List.length_cons]
      push_cast
      have := ih fun x hx => h x (List.mem_cons_of_mem a hx)
      have ha := h a (List.mem_cons_self a l)
      linarith

/-- The source's Jaccard division, when it does not raise, lands in `[0, 1]`. -/
lemma jaccard_mem_unit (f1 f2 : Finset String) (q : ℚ) (h : jaccard f1 f2 = some q) :
    0 ≤ q ∧ q ≤ 1 := by
  unfold jaccard at h
  split at h
  · exact absurd h (by simp)
  · rename_i hu
    rw [Option.some_inj] at h
    subst h
    have hpos : (0:ℚ) < ((f1 ∪ f2).card : ℚ) :=
      Nat.cast_pos.mpr (Nat.pos_of_ne_zero hu)
    refine ⟨div_nonneg (Nat.cast_nonneg _) (le_of_lt hpos), (div_le_one hpos).mpr ?_⟩
    exact_mod_cast Finset.card_le_card Finset.inter_subset_union

lemma best_match_mem_unit (f1 : Finset String) (fs2 : List (Finset String)) (q : ℚ)
    (h : best_match f1 fs2 = some q) : 0 ≤ q ∧ q ≤ 1 := by
  unfold best_match at h
  rw [Option.map_eq_some'] at h
  obtain ⟨js, hjs, rfl⟩ := h
  refine ⟨foldr_max_nonneg js, foldr_max_le_one js ?_⟩
  intro x hxj
  obtain ⟨f2, _, hj⟩ := mapM_mem (jaccard f1) fs2 js hjs x hxj
  exact (jaccard_mem_unit f1 f2 x hj).2

lemma feature_similarity_sets_mem_unit (fs1 fs2 : List (Finset String)) (q : ℚ)
    (h : feature_similarity_sets fs1 fs2 = some q) : 0 ≤ q ∧ q ≤ 1 := by
  unfold feature_similarity_sets at h
  rw [Option.map_eq_some'] at h
  obtain ⟨sims, hsims, rfl⟩ := h
  by_cases he : fs1.isEmpty
  · simp [he]
  · rw [if_neg he]
    have hlen : sims.length = fs1.length := mapM_length _ fs1 sims hsims
    have hn : fs1 ≠ [] := fun hfs => he (by simp [hfs])
    have hlpos : (0:ℚ) < (fs1.length : ℚ) := by
      have : fs1.length ≠ 0 := fun hl => hn (List.eq_nil_of_length_eq_zero hl)
      exact_mod_cast Nat.pos_of_ne_zero this
    have hbounds : ∀ x ∈ sims, 0 ≤ x ∧ x ≤ 1 := by
      intro x hx
      obtain ⟨f1, _, hb⟩ := mapM_mem _ fs1 sims hsims x hx
      exact best_match_mem_unit f1 fs2 x hb
    constructor
    · exact div_nonneg (list_sum_nonneg sims fun x hx => (hbounds x hx).1) (le_of_lt hlpos)
    · rw [div_le_one hlpos]
      calc sims.sum ≤ (sims.length : ℚ) :=
            list_sum_le_length sims fun x hx => (hbounds x hx).2
        _ = (fs1.length : ℚ) := by rw [hlen]

lemma feature_similarity_mem_unit (ms1 ms2 : List MMethod) (q : ℚ)
    (h : feature_similarity ms1 ms2 = some q) : 0 ≤ q ∧ q ≤ 1 := by
  unfold feature_similarity at h
  cases h1 : ms1.mapM get_method_features with
  | none => rw [h1] at h; exact absurd h (by simp)
  | some fs1 =>
      rw [h1] at h
      cases h2 : ms2.mapM get_method_features with
      | none => rw [h2] at h; exact absurd h (by simp)
      | some fs2 =>
          rw [h2] at h
          exact feature_similarity_sets_mem_unit fs1 fs2 q h

/-- The `|∩| / max(| |, | |)` ratio of metrics 1 and 3 lands in `[0, 1]`. -/
lemma card_ratio_mem_unit (s1 s2 : Finset String) (hmax : max s1.card s2.card ≠ 0) :
    0 ≤ (((s1 ∩ s2).card : ℚ) / ((max s1.card s2.card : ℕ) : ℚ)) ∧
      (((s1 ∩ s2).card : ℚ) / ((max s1.card s2.card : ℕ) : ℚ)) ≤ 1 := by
  have hpos : (0:ℚ) < ((max s1.card s2.card : ℕ) : ℚ) :=
    Nat.cast_pos.mpr (Nat.pos_of_ne_zero hmax)
  refine ⟨div_nonneg (Nat.cast_nonneg _) (le_of_lt hpos), (div_le_one hpos).mpr ?_⟩
  exact_mod_cast le_trans (Finset.card_le_card Finset.inter_subset_left) (le_max_left _ _)

lemma signature_similarity_mem_unit (ms1 ms2 : List MMethod) (q : ℚ)
    (h : signature_similarity ms1 ms2 = some q) : 0 ≤ q ∧ q ≤ 1 := by
  simp only [signature_similarity] at h
  split at h
  · exact absurd h (by simp)
  · rename_i hmax
    rw [Option.some_inj] at h
    subst h
    exact card_ratio_mem_unit _ _ hmax

lemma class_similarity_mem_unit (ms1 ms2 : List MMethod) (q : ℚ)
    (h : class_similarity ms1 ms2 = some q) : 0 ≤ q ∧ q ≤ 1 := by
  simp only [class_similarity] at h
  split at h
  · exact absurd h (by simp)
  · rename_i hmax
    rw [Option.some_inj] at h
    subst h
    exact card_ratio_mem_unit _ _ hmax

lemma minmax_mem_unit (a b : ℚ) (ha : 0 ≤ a) (hb : 0 ≤ b) :
    0 ≤ (if max a b > 0 then min a b / max a b else 1) ∧
      (if max a b > 0 then min a b / max a b else 1) ≤ 1 := by
  split
  · rename_i hpos
    exact ⟨div_nonneg (le_min ha hb) (le_of_lt hpos), (div_le_one hpos).mpr min_le_max⟩
  · norm_num

lemma length_similarity_mem_unit (ms1 ms2 : List MMethod) :
    0 ≤ length_similarity ms1 ms2 ∧ length_similarity ms1 ms2 ≤ 1 :=
  minmax_mem_unit _ _ (avg_length_nonneg ms1) (avg_length_nonneg ms2)

lemma bb_similarity_mem_unit (ms1 ms2 : List MMethod) :
    0 ≤ bb_similarity ms1 ms2 ∧ bb_similarity ms1 ms2 ≤ 1 :=
  minmax_mem_unit _ _ (avg_bb_nonneg ms1) (avg_bb_nonneg ms2)

/-- C5: whenever the comparison completes (all five metrics defined), each of
the five metric values lies in `[0, 1]`, the overall score is their sum
divided by 5, and hence the overall score lies in `[0, 1]` as well. -/
theorem metrics_in_unit_interval (ms1 ms2 : List MMethod) (s f c l b o : ℚ)
    (h : compare_apk_code ms1 ms2 = some (s, f, c, l, b, o)) :
    (0 ≤ s ∧ s ≤ 1) ∧ (0 ≤ f ∧ f ≤ 1) ∧ (0 ≤ c ∧ c ≤ 1) ∧ (0 ≤ l ∧ l ≤ 1) ∧
      (0 ≤ b ∧ b ≤ 1) ∧ o = (s + f + c + l + b) / 5 ∧ 0 ≤ o ∧ o ≤ 1 := by
  unfold compare_apk_code at h
  cases hs : signature_similarity ms1 ms2 with
  | none => rw [hs] at h; exact absurd h (by simp [Bind.bind])
  | some s0 =>
  rw [hs] at h
  cases hf : feature_similarity ms1 ms2 with
  | none => rw [hf] at h; exact absurd h (by simp [Bind.bind])
  | some f0 =>
  rw [hf] at h
  cases hc : class_similarity ms1 ms2 with
  | none => rw [hc] at h; exact absurd h (by simp [Bind.bind])
  | some c0 =>
  rw [hc] at h
  simp only [Bind.bind, Option.bind_some, pure, Option.some_inj, Prod.mk.injEq] at h
  obtain ⟨rfl, rfl, rfl, rfl, rfl, rfl⟩ := h
  have Hs := signature_similarity_mem_unit ms1 ms2 _ hs
  have Hf := feature_similarity_mem_unit ms1 ms2 _ hf
  have Hc := class_similarity_mem_unit ms1 ms2 _ hc
  have Hl := length_similarity_mem_unit ms1 ms2
  have Hb := bb_similarity_mem_unit ms1 ms2
  refine ⟨Hs, Hf, Hc, Hl, Hb, rfl, ?_, ?_⟩
  · have h1 := Hs.1; have h2 := Hf.1; have h3 := Hc.1; have h4 := Hl.1; have h5 := Hb.1
    exact div_nonneg (by linarith) (by norm_num)
  · rw [div_le_one (by norm_num : (0:ℚ) < 5)]
    have h1 := Hs.2; have h2 := Hf.2; have h3 := Hc.2; have h4 := Hl.2; have h5 := Hb.2
    linarith

/-! ## C8 -/

lemma toFinset_card_ne_zero {α β : Type} [DecidableEq β] (f : α → β) (l : List α)
    (h : l ≠ []) : (l.map f).toFinset.card ≠ 0 := by
  obtain ⟨a, t, rfl⟩ := List.exists_cons_of_ne_nil h
  exact Finset.card_ne_zero_of_mem (by simp : f a ∈ ((a :: t).map f).toFinset)

lemma signature_similarity_self (ms : List MMethod) (h : ms ≠ []) :
    signature_similarity ms ms = some 1 := by
  simp only [signature_similarity]
  rw [if_neg (max_toFinset_card_ne_zero get_method_signature ms ms (Or.inl h)),
    Finset.inter_self, max_self, Option.some_inj]
  exact div_self (Nat.cast_ne_zero.mpr (toFinset_card_ne_zero get_method_signature ms h))

lemma class_similarity_self (ms : List MMethod) (h : ms ≠ []) :
    class_similarity ms ms = some 1 := by
  simp only [class_similarity]
  rw [if_neg (max_toFinset_card_ne_zero MMethod.class_name ms ms (Or.inl h)),
    Finset.inter_self, max_self, Option.some_inj]
  exact div_self (Nat.cast_ne_zero.mpr (toFinset_card_ne_zero MMethod.class_name ms h))

lemma minmax_self_eq_one (a : ℚ) : (if max a a > 0 then min a a / max a a else 1) = 1 := by
  rw [max_self, min_self]
  split
  · rename_i hpos
    exact div_self (ne_of_gt hpos)
  · rfl

lemma length_similarity_self (ms : List MMethod) : length_similarity ms ms = 1 := by
  simp only [length_similarity]
  exact minmax_self_eq_one _

lemma bb_similarity_self (ms : List MMethod) : bb_similarity ms ms = 1 := by
  simp only [bb_similarity]
  exact minmax_self_eq_one _

lemma jaccard_spec_le_one (f1 f2 : Finset String) : jaccard_spec f1 f2 ≤ 1 := by
  unfold jaccard_spec
  split
  · norm_num
  · rename_i hu
    have hpos : (0:ℚ) < ((f1 ∪ f2).card : ℚ) := by
      have hne : (f1 ∪ f2).card ≠ 0 := fun hc => hu (Finset.card_eq_zero.mp hc)
      exact_mod_cast Nat.pos_of_ne_zero hne
    rw [div_le_one hpos]
    exact_mod_cast Finset.card_le_card Finset.inter_subset_union

lemma sum_map_one {α : Type} (l : List α) : (l.map (fun _ => (1:ℚ))).sum = (l.length : ℚ) := by
  induction l with
  | nil => simp
  | cons a l ih => simp [ih, add_comm]

lemma feature_similarity_self (ms : List MMethod) (fs : List (Finset String))
    (h1 : ms ≠ []) (h2 : ms.mapM get_method_features = some fs) :
    feature_similarity ms ms = some 1 := by
  rw [feature_similarity_spec_eq ms ms fs fs h2 h2, Option.some_inj]
  have hne : fs ≠ [] := by
    intro hfs
    subst hfs
    have hlen := mapM_length get_method_features ms [] h2
    simp only [List.length_nil] at hlen
    exact h1 (List.eq_nil_of_length_eq_zero hlen.symm)
  unfold feature_similarity_spec
  rw [if_neg (fun hE => hne (List.isEmpty_iff.mp hE))]
  have hg : ∀ f1 ∈ fs, (fs.map (jaccard_spec f1)).foldr max 0 =
      (fun _ : Finset String => (1:ℚ)) f1 := by
    intro f1 hf1
    have hnon : f1.Nonempty := mapM_features_nonempty ms fs h2 f1 hf1
    refine le_antisymm (foldr_max_le_one _ ?_) ?_
    · intro x hx
      obtain ⟨f2, _, rfl⟩ := List.mem_map.mp hx
      exact jaccard_spec_le_one f1 f2
    · have hmem : jaccard_spec f1 f1 ∈ fs.map (jaccard_spec f1) :=
        List.mem_map_of_mem (jaccard_spec f1) hf1
      have hle := le_foldr_max _ _ hmem
      rwa [jaccard_spec_self f1 hnon] at hle
  rw [List.map_congr_left hg, sum_map_one]
  exact div_self (Nat.cast_ne_zero.mpr
    (fun hl => hne (List.eq_nil_of_length_eq_zero hl)))

/-- Self-comparison produces the metric tuple `(1, 1, 1, 1, 1, 1)`. -/
lemma compare_self_eq_one (ms : List MMethod) (fs : List (Finset String))
    (h1 : ms ≠ []) (h2 : ms.mapM get_method_features = some fs) :
    compare_apk_code ms ms = some (1, 1, 1, 1, 1, 1) := by
  unfold compare_apk_code
  rw [signature_similarity_self ms h1, feature_similarity_self ms fs h1 h2,
    class_similarity_self ms h1]
  have hmean : ((1:ℚ) + 1 + 1 + 1 + 1) / 5 = 1 := by norm_num
  simp only [Bind.bind, Option.some_bind, length_similarity_self, bb_similarity_self,
    pure, hmean]

/-- C8: comparing a (non-empty, fully extractable) code base with itself
yields exactly `1` for each of the five metrics and for the overall score. -/
theorem compare_with_itself_perfect (ms : List MMethod) (fs : List (Finset String))
    (h1 : ms ≠ []) (h2 : ms.mapM get_method_features = some fs) :
    compare_apk_code ms ms = some (1, 1, 1, 1, 1, 1) :=
  compare_self_eq_one ms fs h1 h2

/-- Witness for C8 at `[methodA]`. -/
theorem compare_with_itself_perfect_witness :
    compare_apk_code [methodA] [methodA] = some (1, 1, 1, 1, 1, 1) :=
  compare_with_itself_perfect [methodA] [featA] (by decide) (by decide)

/-- Witness for C5, at the self-comparison of `[methodA]` where all six
values are `1`. -/
theorem metrics_in_unit_interval_witness :
    ((0:ℚ) ≤ 1 ∧ (1:ℚ) ≤ 1) ∧ ((0:ℚ) ≤ 1 ∧ (1:ℚ) ≤ 1) ∧ ((0:ℚ) ≤ 1 ∧ (1:ℚ) ≤ 1) ∧
      ((0:ℚ) ≤ 1 ∧ (1:ℚ) ≤ 1) ∧ ((0:ℚ) ≤ 1 ∧ (1:ℚ) ≤ 1) ∧
      (1:ℚ) = (1 + 1 + 1 + 1 + 1) / 5 ∧ (0:ℚ) ≤ 1 ∧ (1:ℚ) ≤ 1 :=
  metrics_in_unit_interval [methodA] [methodA] 1 1 1 1 1 1
    (compare_self_eq_one [methodA] [featA] (by decide) (by decide))

end APKCompare
